import Mathlib

/-
Verification development for the plaud-ai-chief-of-staff microservices
(src/services).  The Python sources are shallowly embedded: pure helper
functions become Lean functions, the request handlers become explicit
state-passing functions over cache states and oracles for the external
AI calls, Python floats appearing only as literal constants are modelled
as rational numbers (written with mkRat), and machine-level hashing
(hashlib.md5) is modelled with Nat arithmetic taken mod 2 ^ 32.
-/

namespace Plaud

/-! ## Python string primitives

Models of the Python string operations used by the services:
str.lower (ASCII case folding, which is all the services rely on),
substring containment (the Python "in" operator), and str.encode
(UTF-8 encoding). -/

/-- Model of Python str.lower restricted to its ASCII action
(Char.toLower lowercases exactly the ASCII uppercase letters). -/
def pyLower (s : String) : String :=
  ⟨s.data.map Char.toLower⟩

/-- Boolean list-prefix test (helper for substring containment). -/
def isPrefixList : List Char → List Char → Bool
  | [], _ => true
  | x :: xt, y :: yt => x = y && isPrefixList xt yt
  | _, _ => false

/-- Boolean substring test on character lists: does needle occur
contiguously inside hay?  Model of the Python "in" operator. -/
def hasSubstr (hay needle : List Char) : Bool :=
  match hay with
  | [] => needle.isEmpty
  | _ :: rest => isPrefixList needle hay || hasSubstr rest needle

/-- Model of the Python expression needle in hay for strings. -/
def strContains (hay needle : String) : Bool :=
  hasSubstr hay.data needle.data

/-- Model of Python str.encode() for one character: the UTF-8 bytes of a
Unicode scalar value (Lean Char carries exactly the scalar values). -/
def utf8EncodeCharNat (c : Char) : List Nat :=
  let n := c.toNat
  if n < 128 then [n]
  else if n < 2048 then [192 + n / 64, 128 + n % 64]
  else if n < 65536 then [224 + n / 4096, 128 + n / 64 % 64, 128 + n % 64]
  else [240 + n / 262144, 128 + n / 4096 % 64, 128 + n / 64 % 64, 128 + n % 64]

/-- Model of Python text.encode(): the UTF-8 byte sequence of a string,
each byte a Nat below 256. -/
def utf8Bytes (s : String) : List Nat :=
  (s.data.map utf8EncodeCharNat).flatten

/-! ## MD5 (model of hashlib.md5, RFC 1321)

Both services hash request text with hashlib.md5 to build cache keys.
The algorithm is embedded over Nat with explicit reduction mod 2 ^ 32:
32-bit words are Nats kept below 2 ^ 32, bytes are Nats kept below 256. -/

/-- The 64 MD5 round constants: floor (2 ^ 32 * abs (sin (i + 1))). -/
def md5K : List Nat :=
  [3614090360, 3905402710, 606105819, 3250441966,
   4118548399, 1200080426, 2821735955, 4249261313,
   1770035416, 2336552879, 4294925233, 2304563134,
   1804603682, 4254626195, 2792965006, 1236535329,
   4129170786, 3225465664, 643717713, 3921069994,
   3593408605, 38016083, 3634488961, 3889429448,
   568446438, 3275163606, 4107603335, 1163531501,
   2850285829, 4243563512, 1735328473, 2368359562,
   4294588738, 2272392833, 1839030562, 4259657740,
   2763975236, 1272893353, 4139469664, 3200236656,
   681279174, 3936430074, 3572445317, 76029189,
   3654602809, 3873151461, 530742520, 3299628645,
   4096336452, 1126891415, 2878612391, 4237533241,
   1700485571, 2399980690, 4293915773, 2240044497,
   1873313359, 4264355552, 2734768916, 1309151649,
   4149444226, 3174756917, 718787259, 3951481745]

/-- The 64 MD5 per-round left-rotate amounts. -/
def md5S : List Nat :=
  [7, 12, 17, 22, 7, 12, 17, 22, 7, 12, 17, 22, 7, 12, 17, 22,
   5, 9, 14, 20, 5, 9, 14, 20, 5, 9, 14, 20, 5, 9, 14, 20,
   4, 11, 16, 23, 4, 11, 16, 23, 4, 11, 16, 23, 4, 11, 16, 23,
   6, 10, 15, 21, 6, 10, 15, 21, 6, 10, 15, 21, 6, 10, 15, 21]

/-- Bitwise complement of a 32-bit word represented as a Nat. -/
def not32 (a : Nat) : Nat :=
  Nat.xor a (2 ^ 32 - 1)

/-- Left rotation of a 32-bit word (input assumed below 2 ^ 32). -/
def rotl32 (x c : Nat) : Nat :=
  (x * 2 ^ c + x / 2 ^ (32 - c)) % 2 ^ 32

/-- Little-endian 4-byte decomposition of a 32-bit word. -/
def toLE4 (n : Nat) : List Nat :=
  [n % 256, n / 256 % 256, n / 65536 % 256, n / 16777216 % 256]

/-- Little-endian 8-byte decomposition of a 64-bit length field. -/
def toLE8 (n : Nat) : List Nat :=
  toLE4 (n % 2 ^ 32) ++ toLE4 (n / 2 ^ 32 % 2 ^ 32)

/-- MD5 padding: append the byte 0x80, zero bytes until the length is
56 mod 64, then the original bit length as a 64-bit little-endian field. -/
def padMessage (msg : List Nat) : List Nat :=
  let len := msg.length
  let zeros := (119 - len % 64) % 64
  msg ++ 128 :: List.replicate zeros 0 ++ toLE8 (len * 8 % 2 ^ 64)

/-- Split a byte list into 64-byte blocks (fuel-based recursion so the
kernel can evaluate it; the fuel is the list length). -/
def toBlocksAux : Nat → List Nat → List (List Nat)
  | 0, _ => []
  | _, [] => []
  | fuel + 1, l => l.take 64 :: toBlocksAux fuel (l.drop 64)

/-- The sixteen little-endian 32-bit words of one 64-byte block. -/
def blockWords (block : List Nat) : List Nat :=
  (List.range 16).map fun j =>
    block.getD (4 * j) 0 + 256 * block.getD (4 * j + 1) 0 +
    65536 * block.getD (4 * j + 2) 0 + 16777216 * block.getD (4 * j + 3) 0

/-- One MD5 round: the state is the word quadruple (A, B, C, D). -/
def md5Step (M : List Nat) (st : Nat × Nat × Nat × Nat) (i : Nat) :
    Nat × Nat × Nat × Nat :=
  let a := st.1
  let b := st.2.1
  let c := st.2.2.1
  let d := st.2.2.2
  let fg : Nat × Nat :=
    if i < 16 then (Nat.lor (Nat.land b c) (Nat.land (not32 b) d), i)
    else if i < 32 then (Nat.lor (Nat.land d b) (Nat.land (not32 d) c), (5 * i + 1) % 16)
    else if i < 48 then (Nat.xor (Nat.xor b c) d, (3 * i + 5) % 16)
    else (Nat.xor c (Nat.lor b (not32 d)), (7 * i) % 16)
  let tmp := (fg.1 + a + md5K.getD i 0 + M.getD fg.2 0) % 2 ^ 32
  (d, (b + rotl32 tmp (md5S.getD i 0)) % 2 ^ 32, b, c)

/-- Process one 64-byte block into the running MD5 state. -/
def md5Block (st : Nat × Nat × Nat × Nat) (block : List Nat) :
    Nat × Nat × Nat × Nat :=
  let M := blockWords block
  let r := (List.range 64).foldl (md5Step M) st
  ((st.1 + r.1) % 2 ^ 32, (st.2.1 + r.2.1) % 2 ^ 32,
   (st.2.2.1 + r.2.2.1) % 2 ^ 32, (st.2.2.2 + r.2.2.2) % 2 ^ 32)

/-- The final MD5 word quadruple of a byte message. -/
def md5Words (msg : List Nat) : Nat × Nat × Nat × Nat :=
  let padded := padMessage msg
  (toBlocksAux padded.length padded).foldl md5Block
    (1732584193, 4023233417, 2562383102, 271733878)

/-- The 16-byte MD5 digest of a byte message. -/
def md5Bytes (msg : List Nat) : List Nat :=
  toLE4 (md5Words msg).1 ++ toLE4 (md5Words msg).2.1 ++
  toLE4 (md5Words msg).2.2.1 ++ toLE4 (md5Words msg).2.2.2

/-- The sixteen lowercase hexadecimal digit characters. -/
def hexChars : List Char :=
  "0123456789abcdef".data

/-- The two lowercase hex characters of one byte. -/
def byteHex (b : Nat) : List Char :=
  [hexChars.getD (b / 16 % 16) '0', hexChars.getD (b % 16) '0']

/-- Model of hashlib hexdigest: lowercase hex rendering of a byte list. -/
def hexOfBytes (bs : List Nat) : String :=
  ⟨(bs.map byteHex).flatten⟩

/-- Value of one hex character (used to invert byteHex). -/
def hexVal (c : Char) : Nat :=
  (hexChars.findIdx? (· = c)).getD 0

/-- Inverse of byteHex on two-character lists. -/
def hexPairVal : List Char → Nat
  | [a, b] => 16 * hexVal a + hexVal b
  | _ => 0

/-- The hexdigest of the MD5 hash of a byte message. -/
def md5Hex (msg : List Nat) : String :=
  hexOfBytes (md5Bytes msg)

/-! ## Naive UTC datetimes

Model of the naive Python datetime values the parser service works with:
a day number (days since some epoch) together with a time of day.
Adding a timedelta of whole days keeps the time of day (naive datetimes
have no DST), datetime.replace sets the time fields, and weekday is
day-number arithmetic mod 7 (Monday = 0).  ISO rendering (isoformat) is
an injective function of these fields, so the theorems state equalities
of DateTime values instead of their ISO strings. -/

structure DateTime where
  day : Nat
  hour : Nat
  minute : Nat
  second : Nat
  micro : Nat
deriving DecidableEq, Repr

/-- Model of now + timedelta(days = n). -/
def DateTime.addDays (d : DateTime) (n : Nat) : DateTime :=
  { d with day := d.day + n }

/-- Model of now + timedelta(hours = n) (hours carry into days). -/
def DateTime.addHours (d : DateTime) (n : Nat) : DateTime :=
  { d with day := d.day + (d.hour + n) / 24, hour := (d.hour + n) % 24 }

/-- Model of dt.replace(hour, minute, second, microsecond). -/
def DateTime.replaceTime (d : DateTime) (h m s u : Nat) : DateTime :=
  { d with hour := h, minute := m, second := s, micro := u }

/-- Model of datetime.weekday (Monday = 0); the epoch day 0 is placed on
a Thursday as in the Unix epoch. -/
def DateTime.weekday (d : DateTime) : Nat :=
  (d.day + 3) % 7

/-- Model of Python text[:n] (first n characters of a string). -/
def pySlice (s : String) (n : Nat) : String :=
  ⟨s.data.take n⟩

/-- Value of an ASCII digit character. -/
def digitVal (c : Char) : Nat :=
  c.toNat - 48

/-- Numeric value of a list of ASCII digit characters. -/
def natOfDigits (ds : List Char) : Nat :=
  ds.foldl (fun acc c => 10 * acc + digitVal c) 0

namespace NLParser

/-! ## Natural Language Parser service (src/services/nl-parser/main.py)

The pure helpers are translated directly; the regular expressions are
embedded as explicit scanners with the same leftmost-match, greedy
semantics (Python \d is modelled by the ASCII digit class, which is all
the services feed them). -/

/-- Result of the time regex (\d\x7b1,2\x7d):?(\d\x7b2\x7d)?\s*(am|pm)?:
the hour group, the minute group (0 when absent) and whether the period
group matched pm. -/
structure TimeMatch where
  hour : Nat
  minute : Nat
  pm : Bool
deriving DecidableEq, Repr

/-- Parse the time pattern at a position whose first character is a
digit: one or two hour digits, an optional colon, an optional exact
two-digit minute group, optional whitespace, an optional am/pm period.
All parts after the hour group are optional, so the leftmost regex match
always starts at the first digit of the text and no backtracking beyond
group greediness can occur. -/
def parseTimeAt : List Char → TimeMatch
  | [] => ⟨0, 0, false⟩
  | c1 :: rest =>
    let hr :=
      match rest with
      | c2 :: rest2 =>
        if c2.isDigit then (10 * digitVal c1 + digitVal c2, rest2)
        else (digitVal c1, rest)
      | [] => (digitVal c1, ([] : List Char))
    let afterColon :=
      match hr.2 with
      | ':' :: r => r
      | _ => hr.2
    let mins :=
      match afterColon with
      | a :: b :: r =>
        if a.isDigit && b.isDigit then (10 * digitVal a + digitVal b, r)
        else (0, afterColon)
      | _ => (0, afterColon)
    let afterWs := mins.2.dropWhile (·.isWhitespace)
    let pm :=
      match afterWs with
      | 'p' :: 'm' :: _ => true
      | _ => false
    ⟨hr.1, mins.1, pm⟩

/-- Model of re.search for the time pattern: the leftmost match starts
at the first digit; none when the text has no digit. -/
def findTime : List Char → Option TimeMatch
  | [] => none
  | c :: rest => if c.isDigit then some (parseTimeAt (c :: rest)) else findTime rest

/-- Model of the pm adjustment: hour += 12 when the period is pm and the
hour is below 12. -/
def adjHour (t : TimeMatch) : Nat :=
  if t.pm && t.hour < 12 then t.hour + 12 else t.hour

/-- Match of the pattern in (\d+) days? at the head of the list:
literal characters i, n, space, then at least one digit (greedy, which
is exact here since a space must follow), then space, d, a, y. -/
def matchInDaysAt (cs : List Char) : Option Nat :=
  match cs with
  | a :: b :: c :: rest =>
    if a = 'i' ∧ b = 'n' ∧ c = ' ' then
      let ds := rest.takeWhile (·.isDigit)
      if ds.isEmpty then none
      else
        match rest.dropWhile (·.isDigit) with
        | d :: e :: f :: g :: _ =>
          if d = ' ' ∧ e = 'd' ∧ f = 'a' ∧ g = 'y' then some (natOfDigits ds) else none
        | _ => none
    else none
  | _ => none

/-- Model of re.search for in (\d+) days?: leftmost position where the
pattern matches. -/
def findInDays : List Char → Option Nat
  | [] => none
  | c :: rest =>
    match matchInDaysAt (c :: rest) with
    | some n => some n
    | none => findInDays rest

/-- Match of the pattern in (\d+) hours? at the head of the list. -/
def matchInHoursAt (cs : List Char) : Option Nat :=
  match cs with
  | a :: b :: c :: rest =>
    if a = 'i' ∧ b = 'n' ∧ c = ' ' then
      let ds := rest.takeWhile (·.isDigit)
      if ds.isEmpty then none
      else
        match rest.dropWhile (·.isDigit) with
        | d :: e :: f :: g :: h :: _ =>
          if d = ' ' ∧ e = 'h' ∧ f = 'o' ∧ g = 'u' ∧ h = 'r' then some (natOfDigits ds)
          else none
        | _ => none
    else none
  | _ => none

/-- Model of re.search for in (\d+) hours?. -/
def findInHours : List Char → Option Nat
  | [] => none
  | c :: rest =>
    match matchInHoursAt (c :: rest) with
    | some n => some n
    | none => findInHours rest

/-- The weekday names scanned in order by parse_relative_date. -/
def weekdays : List String :=
  ["monday", "tuesday", "wednesday", "thursday", "friday", "saturday", "sunday"]

/-- Index of the first weekday name contained in the lowered text
(the for loop over weekdays returns at the first hit). -/
def firstWeekday (tl : String) : Option Nat :=
  weekdays.findIdx? (fun w => strContains tl w)

/-- Model of days_ahead = (i - current_weekday) % 7, then 7 when 0. -/
def weekdayAhead (i cur : Nat) : Nat :=
  let ahead := (i + 7 - cur) % 7
  if ahead = 0 then 7 else ahead

/-- Body of parse_relative_date after text_lower = text.lower():
ordered checks for today, tomorrow, next week, in N days, in N hours and
weekday names, defaulting the time of day to 17:00 everywhere except the
in N hours branch.  Python would raise ValueError on an extracted hour
above 23 (datetime.replace); that error path is not modelled and no
claim depends on it. -/
def parseRelGo (tl : String) (now : DateTime) : Option DateTime :=
  if strContains tl "today" then
    match findTime tl.data with
    | some tm => some (now.replaceTime (adjHour tm) tm.minute 0 0)
    | none => some (now.replaceTime 17 0 0 0)
  else if strContains tl "tomorrow" then
    match findTime tl.data with
    | some tm => some ((now.addDays 1).replaceTime (adjHour tm) tm.minute 0 0)
    | none => some ((now.addDays 1).replaceTime 17 0 0 0)
  else if strContains tl "next week" then
    some ((now.addDays 7).replaceTime 17 0 0 0)
  else
    match findInDays tl.data with
    | some n => some ((now.addDays n).replaceTime 17 0 0 0)
    | none =>
      match findInHours tl.data with
      | some n => some (now.addHours n)
      | none =>
        match firstWeekday tl with
        | some i => some ((now.addDays (weekdayAhead i now.weekday)).replaceTime 17 0 0 0)
        | none => none

/-- Model of parse_relative_date(text): lowercases the text once and
dispatches on the relative-date keywords (the timezone parameter of the
source is read nowhere in the function body). -/
def parse_relative_date (text : String) (now : DateTime) : Option DateTime :=
  parseRelGo (pyLower text) now

/-- Model of extract_priority: ordered substring checks on the lowered
text with the three keyword groups of the source (the source computes
text_lower once; the model repeats the pure expression). -/
def extract_priority (text : String) : String :=
  if ["urgent", "asap", "critical", "!!!"].any (fun w => strContains (pyLower text) w)
  then "urgent"
  else if ["high priority", "important", "high"].any (fun w => strContains (pyLower text) w)
  then "high"
  else if ["low priority", "low", "when possible"].any (fun w => strContains (pyLower text) w)
  then "low"
  else "medium"

/-- Python regex word characters (ASCII part of \w). -/
def wordChar (c : Char) : Bool :=
  c.isAlphanum || c = '_'

/-- Model of re.findall for the hashtag pattern: scan left to right,
and at each hash sign take the maximal nonempty run of word characters;
matches are non-overlapping.  Fuel-based recursion (the fuel is the list
length) so the kernel can evaluate it. -/
def findHashtagsAux : Nat → List Char → List String
  | 0, _ => []
  | fuel + 1, cs =>
    match cs with
    | [] => []
    | '#' :: rest =>
      let w := rest.takeWhile wordChar
      if w.isEmpty then findHashtagsAux fuel rest
      else ⟨w⟩ :: findHashtagsAux fuel (rest.dropWhile wordChar)
    | _ :: rest => findHashtagsAux fuel rest

/-- The keyword-to-tag table of extract_tags, in source order. -/
def projectKeywords : List (String × String) :=
  [("meeting", "meetings"), ("email", "communication"), ("report", "reports"),
   ("review", "reviews"), ("plan", "planning"), ("call", "calls"),
   ("presentation", "presentations")]

/-- Model of extract_tags: the hashtags of the text united with the
mapped keywords contained in the lowered text.  Python builds a set and
returns it as a list in unspecified order; the model fixes the order as
first occurrence in hashtags-then-keywords, which represents the same
set. -/
def extract_tags (text : String) : List String :=
  let hashtags := findHashtagsAux text.data.length text.data
  let tl := pyLower text
  let keywordTags := projectKeywords.filterMap
    (fun kv => if strContains tl kv.1 then some kv.2 else none)
  (hashtags ++ keywordTags).dedup

/-- Case-insensitive match of the unit alternation hours?|hrs?: the
tail must begin with hour or hr, any letter case. -/
def matchUnit (cs : List Char) : Bool :=
  match (cs.take 4).map Char.toLower with
  | 'h' :: 'o' :: 'u' :: 'r' :: _ => true
  | 'h' :: 'r' :: _ => true
  | _ => false

/-- Fraction-group candidates for (?:\.\d\x7b1,2\x7d)? in greedy order:
two fraction digits, then one, then no fraction; each candidate carries
value, scale and the rest of the input. -/
def fracCandidates (rest : List Char) : List (Nat × Nat × List Char) :=
  match rest with
  | '.' :: d1 :: d2 :: r =>
    (if d1.isDigit && d2.isDigit then [(10 * digitVal d1 + digitVal d2, 100, r)] else []) ++
    (if d1.isDigit then [(digitVal d1, 10, d2 :: r)] else []) ++
    [(0, 1, rest)]
  | '.' :: d1 :: [] =>
    (if d1.isDigit then [(digitVal d1, 10, ([] : List Char))] else []) ++ [(0, 1, rest)]
  | _ => [(0, 1, rest)]

/-- Try the estimated-hours pattern with a fixed integer-group length:
fraction candidates in greedy order, then \s*, then the unit. -/
def hoursAtWithIntLen (cs : List Char) (n : Nat) : Option Rat :=
  (fracCandidates (cs.drop n)).findSome? fun fc =>
    if matchUnit (fc.2.2.dropWhile (·.isWhitespace)) then
      some (mkRat (natOfDigits (cs.take n) * fc.2.1 + fc.1) fc.2.1)
    else none

/-- Match of (\d\x7b1,4\x7d(?:\.\d\x7b1,2\x7d)?)\s*(?:hours?|hrs?) at the
head of the list: greedy integer group with backtracking from four
digits down to one.  The float(...) conversion of the matched decimal
literal is modelled exactly as a rational. -/
def matchHoursAt (cs : List Char) : Option Rat :=
  let ds := cs.takeWhile (·.isDigit)
  if ds.isEmpty then none
  else
    let maxLen := min 4 ds.length
    ((List.range maxLen).map (fun k => maxLen - k)).findSome? (hoursAtWithIntLen cs)

/-- Model of re.search for the estimated-hours pattern: leftmost
position where the full pattern matches. -/
def findHours : List Char → Option Rat
  | [] => none
  | c :: rest =>
    match matchHoursAt (c :: rest) with
    | some v => some v
    | none => findHours rest

/-- The ParsedTask response model of the parser service.  Pydantic float
fields are modelled as rationals; the deadline ISO string is modelled by
its DateTime value (isoformat is injective). -/
structure ParsedTask where
  title : String
  description : Option String := none
  deadline : Option DateTime := none
  priority : Option String := none
  estimated_hours : Option Rat := none
  tags : List String := []
  assignee : Option String := none
  project : Option String := none
  confidence : Rat := 1
deriving DecidableEq, Repr

/-- The dictionary json.loads produces from the model response in
parse_task, with one optional entry per field read by the handler
(parsed.get returns none for an absent key). -/
structure AIParsed where
  title : Option String := none
  description : Option String := none
  deadline : Option DateTime := none
  priority : Option String := none
  estimated_hours : Option Rat := none
  tags : Option (List String) := none
  assignee : Option String := none
  project : Option String := none
deriving DecidableEq, Repr

/-- Oracle for one external AI completion call in parse_task: the call
raises (network or SDK failure, also any earlier exception reaching the
handler try block), the response carries no JSON object (no brace
match), the matched JSON fails json.loads, or it parses. -/
inductive AIOutcome where
  | raised
  | badJson
  | noJson
  | ok (p : AIParsed)
deriving DecidableEq, Repr

/-- Python x or y for an optional datetime (datetimes are always
truthy). -/
def pyOrOpt (a b : Option DateTime) : Option DateTime :=
  match a with
  | none => b
  | some x => some x

/-- Python x or y where x is an optional string and y a string (the
empty string is falsy). -/
def pyOrStr (a : Option String) (b : String) : String :=
  match a with
  | none => b
  | some s => if s = "" then b else s

/-- Python x or y for optional floats (0.0 is falsy). -/
def pyOrRat (a b : Option Rat) : Option Rat :=
  match a with
  | none => b
  | some x => if x = 0 then b else some x

/-- A cached value with the TTL it was stored with (expiry is not
modelled; no claim quantifies over elapsed time). -/
structure CacheEntry where
  val : ParsedTask
  ttl : Nat
deriving DecidableEq, Repr

/-- The shared Redis cache: an association list from keys to entries. -/
abbrev Cache := List (String × CacheEntry)

/-- Model of redis get through cache_get (json round-tripping of the
stored dict is the identity on the model values). -/
def cacheLookup (c : Cache) (k : String) : Option CacheEntry :=
  (c.find? (fun p => p.1 = k)).map (·.2)

/-- Model of redis setex through cache_set: overwrite the key. -/
def cacheInsert (c : Cache) (k : String) (e : CacheEntry) : Cache :=
  (k, e) :: c.filter (fun p => p.1 ≠ k)

/-- Model of get_cache_key of the parser service. -/
def get_cache_key (pre text : String) : String :=
  pre ++ ":" ++ md5Hex (utf8Bytes text)

/-- The hardcoded fallback ParsedTask of the except branch of
parse_task. -/
def fallbackTask (text : String) : ParsedTask :=
  { title := pySlice text 50, priority := some "medium", confidence := mkRat 3 10 }

/-- The merged result of the JSON branch of parse_task. -/
def mergedTask (text : String) (deadline : Option DateTime) (priorityQ : String)
    (est : Option Rat) (tags : List String) (p : AIParsed) : ParsedTask :=
  { title := p.title.getD (pySlice text 50)
    description := p.description
    deadline := pyOrOpt p.deadline deadline
    priority := some (pyOrStr p.priority priorityQ)
    estimated_hours := pyOrRat p.estimated_hours est
    tags := ((p.tags.getD []) ++ tags).dedup
    assignee := p.assignee
    project := p.project
    confidence := mkRat 9 10 }

/-- The quick-extraction result of the no-JSON branch of parse_task. -/
def quickTask (text : String) (deadline : Option DateTime) (priorityQ : String)
    (est : Option Rat) (tags : List String) : ParsedTask :=
  { title := pySlice text 50
    description := if text.length > 50 then some text else none
    deadline := deadline
    priority := some priorityQ
    estimated_hours := est
    tags := tags
    confidence := mkRat 6 10 }

/-- Outcome of one parse_task request: the response body, the cache
after the request, and how many external AI completion calls were
issued. -/
structure ParseRun where
  result : ParsedTask
  cache : Cache
  apiCalls : Nat
deriving DecidableEq, Repr

/-- Model of the parse_task handler: check the cache under the key of
the request text; on a hit return the cached dict; on a miss run the
quick extractions, issue the external call (oracle ai), build the
result, cache it with TTL 1800 and return it; an exception anywhere in
the try block yields the fallback (the extraction helpers and cache
accessors of the source cannot raise out of the handler: cache_get and
cache_set swallow their own errors, so the modelled exception sources
are the external call and the JSON decoding of its response). -/
def parse_task (text : String) (now : DateTime) (ai : AIOutcome) (cache : Cache) :
    ParseRun :=
  match cacheLookup cache (get_cache_key "parse" text) with
  | some e => ⟨e.val, cache, 0⟩
  | none =>
    let deadline := parse_relative_date text now
    let priorityQ := extract_priority text
    let tags := extract_tags text
    let est := findHours (pySlice text 500).data
    match ai with
    | .raised => ⟨fallbackTask text, cache, 1⟩
    | .badJson => ⟨fallbackTask text, cache, 1⟩
    | .noJson =>
      let r := quickTask text deadline priorityQ est tags
      ⟨r, cacheInsert cache (get_cache_key "parse" text) ⟨r, 1800⟩, 1⟩
    | .ok p =>
      let r := mergedTask text deadline priorityQ est tags p
      ⟨r, cacheInsert cache (get_cache_key "parse" text) ⟨r, 1800⟩, 1⟩

end NLParser

namespace AIIntel

/-! ## AI Intelligence service (src/services/ai-intelligence/main.py) -/

/-- Model of get_cache_key of the AI intelligence service (same body as
the parser service version). -/
def get_cache_key (pre data : String) : String :=
  pre ++ ":" ++ md5Hex (utf8Bytes data)

/-- The EffortEstimationResponse model (floats as rationals). -/
structure EffortResult where
  estimated_hours : Rat
  confidence : Rat
  reasoning : String
  breakdown : List String
deriving DecidableEq, Repr

/-- Oracle for one external completion call in estimate_effort: the
call raises, the model output is not valid JSON, the parsed dict lacks
one of the four required keys (the ValueError branch), or it is valid. -/
inductive EffortAI where
  | raised
  | badJson
  | missingKeys
  | ok (r : EffortResult)
deriving DecidableEq, Repr

/-- The Redis cache of the effort endpoint. -/
abbrev EffortCache := List (String × EffortResult)

/-- Response of the effort endpoint: a body, or an HTTPException with
its status code. -/
inductive EffortOut where
  | ok (r : EffortResult)
  | httpError (status : Nat)
deriving DecidableEq, Repr

/-- Outcome of one estimate_effort request. -/
structure EffortRun where
  out : EffortOut
  cache : EffortCache
  apiCalls : Nat
deriving DecidableEq, Repr

/-- The safe-defaults body returned when json.loads of the model output
fails in the legacy (non shared-libs) mode. -/
def defaultEffort : EffortResult :=
  ⟨mkRat 1 2, mkRat 3 10, "Unable to parse AI response", []⟩

/-- Model of the estimate_effort handler: cache check under the key of
description + context, 503 when no AI client was initialised, then one
external call; an exception maps to HTTPException 500 (in shared-libs
mode a JSON failure surfaces as a ValueError from complete_json and
also becomes a 500, in legacy mode the json.JSONDecodeError handler
returns the safe defaults without caching them); a valid result is
cached (default TTL 3600) and returned. -/
def estimate_effort (desc ctx : String) (aiAvailable sharedLibs : Bool)
    (ai : EffortAI) (cache : EffortCache) : EffortRun :=
  match (cache.find? (fun p => p.1 = get_cache_key "effort" (desc ++ ctx))).map (·.2) with
  | some r => ⟨.ok r, cache, 0⟩
  | none =>
    if !aiAvailable then ⟨.httpError 503, cache, 0⟩
    else
      match ai with
      | .raised => ⟨.httpError 500, cache, 1⟩
      | .missingKeys => ⟨.httpError 500, cache, 1⟩
      | .badJson =>
        if sharedLibs then ⟨.httpError 500, cache, 1⟩
        else ⟨.ok defaultEffort, cache, 1⟩
      | .ok r =>
        ⟨.ok r, (get_cache_key "effort" (desc ++ ctx), r) ::
          cache.filter (fun p => p.1 ≠ get_cache_key "effort" (desc ++ ctx)), 1⟩

end AIIntel

namespace Providers

/-! ## Provider abstraction (src/services/shared/ai_providers.py) -/

/-- The four provider classes the factory can construct. -/
inductive ProviderKind where
  | anthropic
  | openai
  | ollama
  | bedrock
deriving DecidableEq, Repr

/-- A constructed provider instance: which class, and the model string
passed to its constructor. -/
structure AIClient where
  kind : ProviderKind
  model : String
deriving DecidableEq, Repr

/-- Python model or default: the default is used when model is None or
an empty (falsy) string. -/
def pyOrModel (m : Option String) (d : String) : String :=
  match m with
  | none => d
  | some s => if s = "" then d else s

/-- Model of the factory get_ai_client: lowercase the provider name,
dispatch over the four known providers with their default models, and
raise ValueError otherwise. -/
def get_ai_client (provider : String) (model : Option String) : Except String AIClient :=
  if pyLower provider = "anthropic" then
    .ok ⟨.anthropic, pyOrModel model "claude-sonnet-4-5-20250929"⟩
  else if pyLower provider = "openai" then
    .ok ⟨.openai, pyOrModel model "gpt-4"⟩
  else if pyLower provider = "ollama" then
    .ok ⟨.ollama, pyOrModel model "mistral:latest"⟩
  else if pyLower provider = "bedrock" then
    .ok ⟨.bedrock, pyOrModel model "anthropic.claude-sonnet-4-5-20250929-v1:0"⟩
  else
    .error ("Unknown provider: " ++ pyLower provider ++
      ". Choose from: anthropic, openai, ollama, bedrock")

end Providers

namespace DBConfig

/-! ## Database configuration helper (src/services/shared/db_config.py) -/

/-- Strip leading and trailing whitespace (the tolerance of Python
int(str)). -/
def stripWs (cs : List Char) : List Char :=
  ((cs.dropWhile (·.isWhitespace)).reverse.dropWhile (·.isWhitespace)).reverse

/-- Value of a nonempty all-digit character list, none otherwise. -/
def digitsToNat? (ds : List Char) : Option Nat :=
  if ds.isEmpty || !ds.all (·.isDigit) then none else some (natOfDigits ds)

/-- Model of Python int(str): optional surrounding whitespace, an
optional sign, then decimal digits; none models the ValueError raise
(digit-group underscores are not modelled; no configuration value uses
them). -/
def pyInt (s : String) : Option Int :=
  match stripWs s.data with
  | '+' :: ds => (digitsToNat? ds).map (fun n => (n : Int))
  | '-' :: ds => (digitsToNat? ds).map (fun n => -(n : Int))
  | ds => (digitsToNat? ds).map (fun n => (n : Int))

/-- Model of get_max_tokens: the input is the outcome of the config
query for aiMaxTokens (error models any database exception; the
optional string is the fetched row value, with none covering both no
row and a NULL value, which are equally falsy).  An int(...) failure is
caught by the same except branch as a database failure. -/
def get_max_tokens (db : Except Unit (Option String)) : Int :=
  match db with
  | .error _ => 4096
  | .ok none => 4096
  | .ok (some v) =>
    if v = "" then 4096
    else
      match pyInt v with
      | none => 4096
      | some n => max 1000 (min 8192 n)

end DBConfig

namespace VoiceProc

/-! ## Voice processor service (src/services/voice-processor/main.py) -/

/-- Side-effect counters of one transcribe request. -/
structure TransEffects where
  transcribeCalls : Nat
  cacheReads : Nat
  cacheWrites : Nat
  storageWrites : Nat
deriving DecidableEq, Repr

/-- No side effects at all. -/
def noEffects : TransEffects :=
  ⟨0, 0, 0, 0⟩

/-- Response of the transcribe endpoint. -/
inductive TransOut where
  | ok (text : String) (cached : Bool)
  | httpError (status : Nat)
deriving DecidableEq, Repr

/-- Outcome of one transcribe request. -/
structure TransRun where
  out : TransOut
  effects : TransEffects
deriving DecidableEq, Repr

/-- Model of the transcribe_audio handler.  The HTTPException(413)
raised for an oversized upload sits inside the file-reading try block
whose except Exception handler re-raises it as HTTPException(400,
"Error reading file: ..."), so the modelled status of that path is 400;
likewise the HTTPException(503) of the unavailable-local-whisper branch
and the HTTPException(400) of the unsupported-provider branch sit inside
the transcription try block whose except Exception handler re-raises
them as 500.  Only an openai.OpenAIError reaches its dedicated 502
handler.  Oracles: cached is the prior cache content under the key of
this upload, whisperOutcome the external transcription call. -/
def transcribe_audio (apiKeyConfigured : Bool) (fileLen : Nat)
    (cached : Option String) (aiProviderStr : String)
    (whisperOutcome : Except Unit String) (localAvailable storageAvailable : Bool) :
    TransRun :=
  if !apiKeyConfigured then ⟨.httpError 503, noEffects⟩
  else if fileLen > 25 * 1024 * 1024 then ⟨.httpError 400, noEffects⟩
  else
    match cached with
    | some t => ⟨.ok t true, ⟨0, 1, 0, 0⟩⟩
    | none =>
      if aiProviderStr = "openai" then
        match whisperOutcome with
        | .error _ => ⟨.httpError 502, ⟨1, 1, 0, 0⟩⟩
        | .ok t => ⟨.ok t false, ⟨1, 1, 1, if storageAvailable then 1 else 0⟩⟩
      else if aiProviderStr = "ollama" then
        if !localAvailable then ⟨.httpError 500, ⟨0, 1, 0, 0⟩⟩
        else
          match whisperOutcome with
          | .error _ => ⟨.httpError 500, ⟨1, 1, 0, 0⟩⟩
          | .ok t => ⟨.ok t false, ⟨1, 1, 1, if storageAvailable then 1 else 0⟩⟩
      else ⟨.httpError 500, ⟨0, 1, 0, 0⟩⟩

end VoiceProc

namespace ConfigMgr

/-! ## Configuration manager (src/services/shared/config_manager.py)

The config table is modelled with rows carrying the four column names
the two queries of the class mention: get reads SELECT value ... WHERE
key = ..., while set writes SET config_value = ... WHERE config_key =
... (and get_category reads config_key and config_value).  Giving each
row all four columns is the one schema under which every query of the
class runs without a database error, and is the reading most charitable
to the set/get round trip. -/

structure ConfigRow where
  key : String
  value : String
  config_key : String
  config_value : String
deriving DecidableEq, Repr

/-- In-process state of a ConfigManager: the config table behind the
connection, the value cache, whether the cache timestamp is within the
60 second TTL, and whether a connection exists. -/
structure CMState where
  table : List ConfigRow
  cache : List (String × String)
  cacheFresh : Bool
  conn : Bool
deriving DecidableEq, Repr

/-- Model of SELECT value FROM config WHERE key = k (in table order). -/
def selectValueByKey (t : List ConfigRow) (k : String) : List String :=
  (t.filter (fun r => r.key = k)).map (fun r => r.value)

/-- Model of UPDATE config SET config_value = v WHERE config_key = k. -/
def updateByConfigKey (t : List ConfigRow) (k v : String) : List ConfigRow :=
  t.map (fun r => if r.config_key = k then { r with config_value := v } else r)

/-- The database-lookup tail of ConfigManager.get: query the value
column by key, cache a found value, fall back to the default. -/
def dbLookup (st : CMState) (k dflt : String) : String × CMState :=
  if st.conn then
    match selectValueByKey st.table k with
    | v :: _ =>
      (v, { st with cache := (k, v) :: st.cache.filter (fun p => p.1 ≠ k), cacheFresh := true })
    | [] => (dflt, st)
  else (dflt, st)

/-- Model of ConfigManager.get with force_db = True: serve a fresh
cached entry, otherwise read the database. -/
def getDb (st : CMState) (k dflt : String) : String × CMState :=
  match (st.cache.find? (fun p => p.1 = k)).map (·.2) with
  | some v => if st.cacheFresh then (v, st) else dbLookup st k dflt
  | none => dbLookup st k dflt

/-- Model of key.replace with dots to underscores, uppercased. -/
def envKey (k : String) : String :=
  ⟨k.data.map (fun c => if c = '.' then '_' else c.toUpper)⟩

/-- Model of ConfigManager.get: with force_db it is the database path;
otherwise the env override flag is read (itself force_db), and a set
environment variable wins before the database path runs. -/
def get (st : CMState) (k dflt : String) (forceDb : Bool)
    (env : String → Option String) : String × CMState :=
  if forceDb then getDb st k dflt
  else
    let ov := getDb st "system.allow_env_override" "true"
    if pyLower ov.1 = "true" then
      match env (envKey k) with
      | some v => (v, ov.2)
      | none => getDb ov.2 k dflt
    else getDb ov.2 k dflt

/-- Model of ConfigManager.set: raises (RuntimeError) without a
connection; otherwise runs the UPDATE against config_value/config_key
and deletes the key from the in-process cache. -/
def set (st : CMState) (k v : String) : Except Unit CMState :=
  if !st.conn then .error ()
  else .ok { st with
    table := updateByConfigKey st.table k v,
    cache := st.cache.filter (fun p => p.1 ≠ k) }

end ConfigMgr

/-! ## Bridge lemmas between the Boolean scanners and their
specification-level counterparts -/

theorem isPrefixList_iff (xs ys : List Char) : isPrefixList xs ys = true ↔ xs <+: ys := by
  induction xs generalizing ys with
  | nil => simp [isPrefixList]
  | cons a as ih =>
    cases ys with
    | nil => simp [isPrefixList]
    | cons b bs => simp [isPrefixList, ih, List.cons_prefix_cons]

theorem hasSubstr_iff (hay needle : List Char) :
    hasSubstr hay needle = true ↔ needle <:+: hay := by
  induction hay with
  | nil => simp [hasSubstr, List.isEmpty_iff]
  | cons c rest ih => simp [hasSubstr, ih, isPrefixList_iff, List.infix_cons_iff]

theorem strContains_iff (h n : String) :
    strContains h n = true ↔ n.data <:+: h.data :=
  hasSubstr_iff h.data n.data

theorem anyContains_iff (tl : String) (ws : List String) :
    ws.any (fun w => strContains tl w) = true ↔ ∃ w ∈ ws, w.data <:+: tl.data := by
  simp [List.any_eq_true, strContains_iff]

/-- C3: extract_priority always returns one of urgent, high, medium,
low, by ordered substring rules on the lowercased text: urgent when the
text contains one of urgent, asap, critical, three bangs; otherwise high
for high priority, important, high; otherwise low for low priority, low,
when possible; otherwise medium. -/
theorem extract_priority_spec (text : String) :
    (NLParser.extract_priority text = "urgent" ↔
      ∃ w ∈ ["urgent", "asap", "critical", "!!!"], w.data <:+: (pyLower text).data)
    ∧ (NLParser.extract_priority text = "high" ↔
      ((¬∃ w ∈ ["urgent", "asap", "critical", "!!!"], w.data <:+: (pyLower text).data)
        ∧ ∃ w ∈ ["high priority", "important", "high"], w.data <:+: (pyLower text).data))
    ∧ (NLParser.extract_priority text = "low" ↔
      ((¬∃ w ∈ ["urgent", "asap", "critical", "!!!"], w.data <:+: (pyLower text).data)
        ∧ (¬∃ w ∈ ["high priority", "important", "high"], w.data <:+: (pyLower text).data)
        ∧ ∃ w ∈ ["low priority", "low", "when possible"], w.data <:+: (pyLower text).data))
    ∧ (NLParser.extract_priority text = "medium" ↔
      ((¬∃ w ∈ ["urgent", "asap", "critical", "!!!"], w.data <:+: (pyLower text).data)
        ∧ (¬∃ w ∈ ["high priority", "important", "high"], w.data <:+: (pyLower text).data)
        ∧ ¬∃ w ∈ ["low priority", "low", "when possible"], w.data <:+: (pyLower text).data))
    ∧ (NLParser.extract_priority text = "urgent" ∨ NLParser.extract_priority text = "high"
        ∨ NLParser.extract_priority text = "low" ∨ NLParser.extract_priority text = "medium") := by
  have h1 := anyContains_iff (pyLower text) ["urgent", "asap", "critical", "!!!"]
  have h2 := anyContains_iff (pyLower text) ["high priority", "important", "high"]
  have h3 := anyContains_iff (pyLower text) ["low priority", "low", "when possible"]
  cases e1 : ["urgent", "asap", "critical", "!!!"].any
      (fun w => strContains (pyLower text) w) with
  | true =>
    have hE1 := h1.mp e1
    have hval : NLParser.extract_priority text = "urgent" := by
      unfold NLParser.extract_priority
      rw [if_pos e1]
    rw [hval]
    exact ⟨iff_of_true rfl hE1,
      iff_of_false (by decide) fun h => h.1 hE1,
      iff_of_false (by decide) fun h => h.1 hE1,
      iff_of_false (by decide) fun h => h.1 hE1,
      Or.inl rfl⟩
  | false =>
    have n1 : ¬∃ w ∈ ["urgent", "asap", "critical", "!!!"],
        w.data <:+: (pyLower text).data := fun hE => absurd (h1.mpr hE) (by simp [e1])
    cases e2 : ["high priority", "important", "high"].any
        (fun w => strContains (pyLower text) w) with
    | true =>
      have hE2 := h2.mp e2
      have hval : NLParser.extract_priority text = "high" := by
        unfold NLParser.extract_priority
        rw [if_neg (by simp [e1]), if_pos e2]
      rw [hval]
      exact ⟨iff_of_false (by decide) n1,
        iff_of_true rfl ⟨n1, hE2⟩,
        iff_of_false (by decide) fun h => h.2.1 hE2,
        iff_of_false (by decide) fun h => h.2.1 hE2,
        Or.inr (Or.inl rfl)⟩
    | false =>
      have n2 : ¬∃ w ∈ ["high priority", "important", "high"],
          w.data <:+: (pyLower text).data := fun hE => absurd (h2.mpr hE) (by simp [e2])
      cases e3 : ["low priority", "low", "when possible"].any
          (fun w => strContains (pyLower text) w) with
      | true =>
        have hE3 := h3.mp e3
        have hval : NLParser.extract_priority text = "low" := by
          unfold NLParser.extract_priority
          rw [if_neg (by simp [e1]), if_neg (by simp [e2]), if_pos e3]
        rw [hval]
        exact ⟨iff_of_false (by decide) n1,
          iff_of_false (by decide) fun h => n2 h.2,
          iff_of_true rfl ⟨n1, n2, hE3⟩,
          iff_of_false (by decide) fun h => h.2.2 hE3,
          Or.inr (Or.inr (Or.inl rfl))⟩
      | false =>
        have n3 : ¬∃ w ∈ ["low priority", "low", "when possible"],
            w.data <:+: (pyLower text).data := fun hE => absurd (h3.mpr hE) (by simp [e3])
        have hval : NLParser.extract_priority text = "medium" := by
          unfold NLParser.extract_priority
          rw [if_neg (by simp [e1]), if_neg (by simp [e2]), if_neg (by simp [e3])]
        rw [hval]
        exact ⟨iff_of_false (by decide) n1,
          iff_of_false (by decide) fun h => n2 h.2,
          iff_of_false (by decide) fun h => n3 h.2.2,
          iff_of_true rfl ⟨n1, n2, n3⟩,
          Or.inr (Or.inr (Or.inr rfl))⟩

/-! ## Digit-free texts match none of the numeric patterns -/

theorem findTime_none {cs : List Char} (h : ∀ c ∈ cs, c.isDigit = false) :
    NLParser.findTime cs = none := by
  induction cs with
  | nil => rfl
  | cons c rest ih =>
    simp only [NLParser.findTime, h c (by simp), if_false, Bool.false_eq_true, ite_false]
    exact ih fun x hx => h x (by simp [hx])

theorem takeWhileDigit_nil {rest : List Char} (h : ∀ c ∈ rest, c.isDigit = false) :
    rest.takeWhile (·.isDigit) = [] := by
  cases rest with
  | nil => rfl
  | cons r rs => simp [List.takeWhile_cons, h r (by simp)]

theorem matchInDaysAt_none {cs : List Char} (h : ∀ c ∈ cs, c.isDigit = false) :
    NLParser.matchInDaysAt cs = none := by
  rcases cs with _ | ⟨a, cs⟩
  · rfl
  rcases cs with _ | ⟨b, cs⟩
  · rfl
  rcases cs with _ | ⟨c, rest⟩
  · rfl
  simp only [NLParser.matchInDaysAt]
  split
  · rw [takeWhileDigit_nil fun x hx => h x (by simp [hx])]
    simp
  · rfl

theorem findInDays_none {cs : List Char} (h : ∀ c ∈ cs, c.isDigit = false) :
    NLParser.findInDays cs = none := by
  induction cs with
  | nil => rfl
  | cons c rest ih =>
    simp only [NLParser.findInDays, matchInDaysAt_none h]
    exact ih fun x hx => h x (by simp [hx])

theorem matchInHoursAt_none {cs : List Char} (h : ∀ c ∈ cs, c.isDigit = false) :
    NLParser.matchInHoursAt cs = none := by
  rcases cs with _ | ⟨a, cs⟩
  · rfl
  rcases cs with _ | ⟨b, cs⟩
  · rfl
  rcases cs with _ | ⟨c, rest⟩
  · rfl
  simp only [NLParser.matchInHoursAt]
  split
  · rw [takeWhileDigit_nil fun x hx => h x (by simp [hx])]
    simp
  · rfl

theorem findInHours_none {cs : List Char} (h : ∀ c ∈ cs, c.isDigit = false) :
    NLParser.findInHours cs = none := by
  induction cs with
  | nil => rfl
  | cons c rest ih =>
    simp only [NLParser.findInHours, matchInHoursAt_none h]
    exact ih fun x hx => h x (by simp [hx])

/-- C4: for text whose lowered form contains tomorrow but not today and
has no digit (so the time pattern cannot match), parse_relative_date
returns now plus one day with the time replaced by exactly 17:00:00;
and in general, on digit-free text every deadline the function returns
carries the 17:00 default time of day. -/
theorem parse_relative_date_spec (text : String) (now : DateTime) :
    (strContains (pyLower text) "tomorrow" = true →
     strContains (pyLower text) "today" = false →
     (∀ c ∈ (pyLower text).data, c.isDigit = false) →
     NLParser.parse_relative_date text now = some ((now.addDays 1).replaceTime 17 0 0 0))
    ∧ (∀ d : DateTime, (∀ c ∈ (pyLower text).data, c.isDigit = false) →
       NLParser.parse_relative_date text now = some d →
       d.hour = 17 ∧ d.minute = 0 ∧ d.second = 0 ∧ d.micro = 0) := by
  constructor
  · intro htom htod hdig
    unfold NLParser.parse_relative_date NLParser.parseRelGo
    rw [if_neg (by simp [htod]), if_pos htom, findTime_none hdig]
  · intro d hdig hparse
    unfold NLParser.parse_relative_date NLParser.parseRelGo at hparse
    cases h1 : strContains (pyLower text) "today" with
    | true =>
      rw [if_pos h1, findTime_none hdig] at hparse
      obtain rfl : (now.replaceTime 17 0 0 0) = d := by simpa using hparse
      simp [DateTime.replaceTime]
    | false =>
      rw [if_neg (by simp [h1])] at hparse
      cases h2 : strContains (pyLower text) "tomorrow" with
      | true =>
        rw [if_pos h2, findTime_none hdig] at hparse
        obtain rfl : ((now.addDays 1).replaceTime 17 0 0 0) = d := by simpa using hparse
        simp [DateTime.replaceTime]
      | false =>
        rw [if_neg (by simp [h2])] at hparse
        cases h3 : strContains (pyLower text) "next week" with
        | true =>
          rw [if_pos h3] at hparse
          obtain rfl : ((now.addDays 7).replaceTime 17 0 0 0) = d := by simpa using hparse
          simp [DateTime.replaceTime]
        | false =>
          rw [if_neg (by simp [h3]), findInDays_none hdig, findInHours_none hdig] at hparse
          cases h4 : NLParser.firstWeekday (pyLower text) with
          | some i =>
            rw [h4] at hparse
            obtain rfl :
                ((now.addDays (NLParser.weekdayAhead i now.weekday)).replaceTime 17 0 0 0) = d := by
              simpa using hparse
            simp [DateTime.replaceTime]
          | none =>
            rw [h4] at hparse
            simp at hparse

/-- Witness for C4: a concrete tomorrow text with no digits lands on
the next day at 17:00, and a concrete weekday text keeps the 17:00
default time. -/
theorem parse_relative_date_spec_witness :
    NLParser.parse_relative_date "Call Dana tomorrow" ⟨100, 9, 30, 0, 0⟩
        = some ((DateTime.addDays ⟨100, 9, 30, 0, 0⟩ 1).replaceTime 17 0 0 0)
    ∧ (((DateTime.addDays ⟨100, 9, 30, 0, 0⟩ 6).replaceTime 17 0 0 0).hour = 17
        ∧ ((DateTime.addDays ⟨100, 9, 30, 0, 0⟩ 6).replaceTime 17 0 0 0).minute = 0
        ∧ ((DateTime.addDays ⟨100, 9, 30, 0, 0⟩ 6).replaceTime 17 0 0 0).second = 0
        ∧ ((DateTime.addDays ⟨100, 9, 30, 0, 0⟩ 6).replaceTime 17 0 0 0).micro = 0) :=
  ⟨(parse_relative_date_spec "Call Dana tomorrow" ⟨100, 9, 30, 0, 0⟩).1
      (by decide) (by decide) (by decide),
   (parse_relative_date_spec "standup friday" ⟨100, 9, 30, 0, 0⟩).2
      ((DateTime.addDays ⟨100, 9, 30, 0, 0⟩ 6).replaceTime 17 0 0 0)
      (by decide) (by decide)⟩

/-! ## Cache behaviour of the parse_task handler -/

theorem cacheLookup_insert (c : NLParser.Cache) (k : String) (e : NLParser.CacheEntry) :
    NLParser.cacheLookup (NLParser.cacheInsert c k e) k = some e := by
  simp [NLParser.cacheLookup, NLParser.cacheInsert, List.find?]

theorem parse_task_hit (text : String) (now : DateTime) (ai : NLParser.AIOutcome)
    (cache : NLParser.Cache) (e : NLParser.CacheEntry)
    (h : NLParser.cacheLookup cache (NLParser.get_cache_key "parse" text) = some e) :
    NLParser.parse_task text now ai cache = ⟨e.val, cache, 0⟩ := by
  simp [NLParser.parse_task, h]

/-- C1: the parse_task handler follows the cache-aside pattern: on a
cache hit under the key of the request text it returns the cached value
with no external call; on a miss, when the external call returns a
response (with or without a JSON object in it), it makes exactly one
external call, stores the resulting ParsedTask under the same key with
TTL 1800, and any second request with the same text then answers from
the cache with the first result and no external call. -/
theorem parse_task_cache_aside (text : String) (now : DateTime) (ai : NLParser.AIOutcome)
    (cache : NLParser.Cache) (e : NLParser.CacheEntry) :
    (NLParser.cacheLookup cache (NLParser.get_cache_key "parse" text) = some e →
      NLParser.parse_task text now ai cache = ⟨e.val, cache, 0⟩)
    ∧ (NLParser.cacheLookup cache (NLParser.get_cache_key "parse" text) = none →
       (ai = .noJson ∨ ∃ p, ai = .ok p) →
        (NLParser.parse_task text now ai cache).apiCalls = 1
        ∧ NLParser.cacheLookup (NLParser.parse_task text now ai cache).cache
            (NLParser.get_cache_key "parse" text)
            = some ⟨(NLParser.parse_task text now ai cache).result, 1800⟩
        ∧ ∀ (now₂ : DateTime) (ai₂ : NLParser.AIOutcome),
            NLParser.parse_task text now₂ ai₂ (NLParser.parse_task text now ai cache).cache
              = ⟨(NLParser.parse_task text now ai cache).result,
                 (NLParser.parse_task text now ai cache).cache, 0⟩) := by
  constructor
  · intro h
    exact parse_task_hit text now ai cache e h
  · intro h hai
    have hval :
        NLParser.parse_task text now ai cache
          = ⟨(NLParser.parse_task text now ai cache).result,
             NLParser.cacheInsert cache (NLParser.get_cache_key "parse" text)
               ⟨(NLParser.parse_task text now ai cache).result, 1800⟩, 1⟩ := by
      rcases hai with rfl | ⟨p, rfl⟩ <;> simp [NLParser.parse_task, h]
    refine ⟨by rw [hval], ?_, ?_⟩
    · rw [hval]
      exact cacheLookup_insert ..
    · intro now₂ ai₂
      have hl : NLParser.cacheLookup (NLParser.parse_task text now ai cache).cache
          (NLParser.get_cache_key "parse" text)
          = some ⟨(NLParser.parse_task text now ai cache).result, 1800⟩ := by
        rw [hval]
        exact cacheLookup_insert ..
      exact parse_task_hit text now₂ ai₂ _ _ hl

/-- C2: whenever the external call of parse_task raises, or its
response carries a brace-matched JSON fragment that fails to decode
(the modelled exception sources of the handler try block), the endpoint
returns the hardcoded fallback ParsedTask: title the first 50 characters
of the text, priority medium, confidence 0.3, every other field at its
default, and no HTTP error escapes. -/
theorem parse_task_exception_fallback (text : String) (now : DateTime)
    (cache : NLParser.Cache) (ai : NLParser.AIOutcome)
    (hmiss : NLParser.cacheLookup cache (NLParser.get_cache_key "parse" text) = none)
    (herr : ai = .raised ∨ ai = .badJson) :
    NLParser.parse_task text now ai cache =
      ⟨{ title := pySlice text 50, description := none, deadline := none,
         priority := some "medium", estimated_hours := none, tags := [],
         assignee := none, project := none, confidence := mkRat 3 10 },
       cache, 1⟩ := by
  rcases herr with rfl | rfl <;>
    simp [NLParser.parse_task, hmiss, NLParser.fallbackTask]

/-- Witness for C2: a concrete failing request is answered with the
fallback payload. -/
theorem parse_task_exception_fallback_witness :
    NLParser.parse_task "Ship the quarterly report to Dana and the board by Monday morning"
        ⟨100, 9, 30, 0, 0⟩ .raised [] =
      ⟨{ title := pySlice
            "Ship the quarterly report to Dana and the board by Monday morning" 50,
         description := none, deadline := none,
         priority := some "medium", estimated_hours := none, tags := [],
         assignee := none, project := none, confidence := mkRat 3 10 },
       [], 1⟩ :=
  parse_task_exception_fallback
    "Ship the quarterly report to Dana and the board by Monday morning"
    ⟨100, 9, 30, 0, 0⟩ [] .raised rfl (Or.inl rfl)

/-- C7: neither handler retries the external AI call: every parse_task
request and every estimate_effort request issues at most one external
call, whatever the cache state and however the call turns out
(including when it raises). -/
theorem no_retry (text : String) (now : DateTime) (ai : NLParser.AIOutcome)
    (cache : NLParser.Cache) (desc ctx : String) (aiAvail shared : Bool)
    (eai : AIIntel.EffortAI) (ecache : AIIntel.EffortCache) :
    (NLParser.parse_task text now ai cache).apiCalls ≤ 1
    ∧ (AIIntel.estimate_effort desc ctx aiAvail shared eai ecache).apiCalls ≤ 1 := by
  constructor
  · cases h : NLParser.cacheLookup cache (NLParser.get_cache_key "parse" text) <;>
      cases ai <;> simp [NLParser.parse_task, h]
  · cases h : (ecache.find? (fun p => p.1 = AIIntel.get_cache_key "effort" (desc ++ ctx))).map
        (·.2) <;>
      cases aiAvail <;> cases eai <;> cases shared <;>
      simp [AIIntel.estimate_effort, h]

/-- Witness for C1: a concrete miss-then-hit run makes one external
call, caches its result under the request key, and a second identical
request is answered from the cache with zero external calls even though
its own oracle would raise. -/
theorem parse_task_cache_aside_witness :
    (NLParser.parse_task "t" ⟨0, 0, 0, 0, 0⟩
        (.ok ⟨none, none, none, none, none, none, none, none⟩) []).apiCalls = 1
    ∧ NLParser.cacheLookup
        (NLParser.parse_task "t" ⟨0, 0, 0, 0, 0⟩
          (.ok ⟨none, none, none, none, none, none, none, none⟩) []).cache
        (NLParser.get_cache_key "parse" "t")
        = some ⟨(NLParser.parse_task "t" ⟨0, 0, 0, 0, 0⟩
            (.ok ⟨none, none, none, none, none, none, none, none⟩) []).result, 1800⟩
    ∧ NLParser.parse_task "t" ⟨1, 2, 3, 4, 5⟩ .raised
        (NLParser.parse_task "t" ⟨0, 0, 0, 0, 0⟩
          (.ok ⟨none, none, none, none, none, none, none, none⟩) []).cache
        = ⟨(NLParser.parse_task "t" ⟨0, 0, 0, 0, 0⟩
              (.ok ⟨none, none, none, none, none, none, none, none⟩) []).result,
           (NLParser.parse_task "t" ⟨0, 0, 0, 0, 0⟩
              (.ok ⟨none, none, none, none, none, none, none, none⟩) []).cache, 0⟩ :=
  have h := (parse_task_cache_aside "t" ⟨0, 0, 0, 0, 0⟩
      (.ok ⟨none, none, none, none, none, none, none, none⟩) []
      ⟨NLParser.fallbackTask "t", 0⟩).2 (by decide) (Or.inr ⟨_, rfl⟩)
  ⟨h.1, h.2.1, h.2.2 ⟨1, 2, 3, 4, 5⟩ .raised⟩

/-! ## Shape and injectivity of the MD5 cache keys -/

theorem md5Bytes_length (m : List Nat) : (md5Bytes m).length = 16 := by
  simp [md5Bytes, toLE4]

theorem md5Bytes_lt (m : List Nat) : ∀ b ∈ md5Bytes m, b < 256 := by
  intro b hb
  simp [md5Bytes, toLE4] at hb
  omega

theorem hexOfBytes_length (bs : List Nat) : (hexOfBytes bs).length = 2 * bs.length := by
  show ((bs.map byteHex).flatten).length = 2 * bs.length
  induction bs with
  | nil => rfl
  | cons b bs ih =>
    simp only [List.map_cons, List.flatten_cons, List.length_append, ih, byteHex]
    simp
    omega

theorem hexChars_getD_mem (i : Nat) : hexChars.getD i '0' ∈ hexChars := by
  rcases Nat.lt_or_ge i 16 with h | h
  · interval_cases i <;> decide
  · rw [List.getD_eq_default]
    · decide
    · have h16 : hexChars.length = 16 := rfl
      omega

theorem byteHex_mem (b : Nat) : ∀ c ∈ byteHex b, c ∈ hexChars := by
  intro c hc
  simp only [byteHex, List.mem_cons, List.mem_singleton, List.not_mem_nil, or_false] at hc
  rcases hc with rfl | rfl <;> exact hexChars_getD_mem _

theorem md5Hex_mem (m : List Nat) : ∀ c ∈ (md5Hex m).data, c ∈ hexChars := by
  intro c hc
  have hc2 : c ∈ ((md5Bytes m).map byteHex).flatten := hc
  rcases List.mem_flatten.mp hc2 with ⟨l, hl, hcl⟩
  rcases List.mem_map.mp hl with ⟨b, _, rfl⟩
  exact byteHex_mem b c hcl

set_option maxRecDepth 10000 in
theorem byteHex_decode : ∀ b : Fin 256, hexPairVal (byteHex b.1) = b.1 := by decide

theorem byteHex_injOn {b1 b2 : Nat} (h1 : b1 < 256) (h2 : b2 < 256)
    (h : byteHex b1 = byteHex b2) : b1 = b2 := by
  have e1 := byteHex_decode ⟨b1, h1⟩
  have e2 := byteHex_decode ⟨b2, h2⟩
  simp only [] at e1 e2
  rw [← e1, ← e2, h]

theorem hexFlat_injOn : ∀ {bs1 bs2 : List Nat}, (∀ b ∈ bs1, b < 256) →
    (∀ b ∈ bs2, b < 256) →
    (bs1.map byteHex).flatten = (bs2.map byteHex).flatten → bs1 = bs2 := by
  intro bs1
  induction bs1 with
  | nil =>
    intro bs2 _ _ h
    cases bs2 with
    | nil => rfl
    | cons b bs => simp [byteHex] at h
  | cons a as ih =>
    intro bs2 ha hb h
    cases bs2 with
    | nil => simp [byteHex] at h
    | cons b bs =>
      simp only [List.map_cons, List.flatten_cons] at h
      have hlen : (byteHex a).length = (byteHex b).length := by simp [byteHex]
      rcases List.append_inj h hlen with ⟨hhead, htail⟩
      rw [byteHex_injOn (ha a (by simp)) (hb b (by simp)) hhead,
        ih (fun x hx => ha x (by simp [hx])) (fun x hx => hb x (by simp [hx])) htail]

theorem hexData_injOn {bs1 bs2 : List Nat} (h1 : ∀ b ∈ bs1, b < 256)
    (h2 : ∀ b ∈ bs2, b < 256)
    (h : (hexOfBytes bs1).data = (hexOfBytes bs2).data) : bs1 = bs2 :=
  hexFlat_injOn h1 h2 h

theorem get_cache_key_inj (pre t1 t2 : String)
    (h : md5Bytes (utf8Bytes t1) ≠ md5Bytes (utf8Bytes t2)) :
    NLParser.get_cache_key pre t1 ≠ NLParser.get_cache_key pre t2 := by
  intro he
  apply h
  have hd : ((pre ++ ":") ++ md5Hex (utf8Bytes t1)).data
      = ((pre ++ ":") ++ md5Hex (utf8Bytes t2)).data := congrArg String.data he
  rw [String.data_append, String.data_append] at hd
  exact hexData_injOn (md5Bytes_lt _) (md5Bytes_lt _) (List.append_cancel_left hd)

/-- C5: cache keys have the fixed shape prefix, colon, 32 lowercase hex
characters of the MD5 digest of the UTF-8 text; both services compute
identical keys (the hashing is one deterministic function); and texts
with different digests get different keys under the same prefix. -/
theorem get_cache_key_spec (pre t : String) :
    (NLParser.get_cache_key pre t).data
        = (pre ++ ":").data ++ (md5Hex (utf8Bytes t)).data
    ∧ (md5Hex (utf8Bytes t)).length = 32
    ∧ (∀ c ∈ (md5Hex (utf8Bytes t)).data, c ∈ hexChars)
    ∧ AIIntel.get_cache_key pre t = NLParser.get_cache_key pre t
    ∧ ∀ t₂ : String, md5Bytes (utf8Bytes t) ≠ md5Bytes (utf8Bytes t₂) →
        NLParser.get_cache_key pre t ≠ NLParser.get_cache_key pre t₂ := by
  refine ⟨?_, ?_, md5Hex_mem _, rfl, get_cache_key_inj pre t⟩
  · show ((pre ++ ":") ++ md5Hex (utf8Bytes t)).data = _
    rw [String.data_append]
  · rw [show md5Hex (utf8Bytes t) = hexOfBytes (md5Bytes (utf8Bytes t)) from rfl,
      hexOfBytes_length, md5Bytes_length]

set_option maxRecDepth 100000 in
/-- Witness for C5: the key of the empty text is the known MD5 digest
of the empty message, and the keys of two concrete texts with different
digests differ. -/
theorem get_cache_key_spec_witness :
    NLParser.get_cache_key "parse" "" = "parse:d41d8cd98f00b204e9800998ecf8427e"
    ∧ NLParser.get_cache_key "parse" "a" ≠ NLParser.get_cache_key "parse" "b" :=
  ⟨by decide, (get_cache_key_spec "parse" "a").2.2.2.2 "b" (by decide)⟩

/-- C6 counterexample: the claim says the factory uses the stated
default model exactly when no model is passed, but passing the empty
string (a falsy value under the Python or) also selects the default, so
the exactly-when biconditional fails at model = some "". -/
theorem get_ai_client_default_not_iff_none :
    ¬ (∀ (m : Option String) (c : Providers.AIClient),
        Providers.get_ai_client "anthropic" m = .ok c →
        (c.model = "claude-sonnet-4-5-20250929" ↔ m = none)) := by
  intro h
  have h2 := h (some "") ⟨.anthropic, "claude-sonnet-4-5-20250929"⟩ rfl
  exact Option.noConfusion (h2.mp rfl)

/-- C6 amended: get_ai_client lowercases its provider argument and for
the four known providers returns the corresponding class, whose model is
the passed model when that is a nonempty string and the stated default
when the model argument is absent or an empty string; every other
provider string raises ValueError and constructs no provider. -/
theorem get_ai_client_spec (p : String) (m : Option String) :
    (∀ kind dflt,
      (pyLower p, kind, dflt) ∈
        ([("anthropic", Providers.ProviderKind.anthropic, "claude-sonnet-4-5-20250929"),
          ("openai", Providers.ProviderKind.openai, "gpt-4"),
          ("ollama", Providers.ProviderKind.ollama, "mistral:latest"),
          ("bedrock", Providers.ProviderKind.bedrock,
            "anthropic.claude-sonnet-4-5-20250929-v1:0")] :
          List (String × Providers.ProviderKind × String)) →
      ((m = none ∨ m = some "") → Providers.get_ai_client p m = .ok ⟨kind, dflt⟩)
      ∧ (∀ s, s ≠ "" → m = some s → Providers.get_ai_client p m = .ok ⟨kind, s⟩))
    ∧ (pyLower p ∉ (["anthropic", "openai", "ollama", "bedrock"] : List String) →
        ∃ msg, Providers.get_ai_client p m = .error msg) := by
  constructor
  · intro kind dflt hmem
    simp only [List.mem_cons, List.not_mem_nil, or_false] at hmem
    rcases hmem with h | h | h | h <;>
    · rw [Prod.mk.injEq, Prod.mk.injEq] at h
      obtain ⟨hp, rfl, rfl⟩ := h
      constructor
      · rintro (rfl | rfl) <;>
          simp [Providers.get_ai_client, hp, Providers.pyOrModel]
      · rintro s hs rfl
        simp [Providers.get_ai_client, hp, Providers.pyOrModel, hs]
  · intro hnot
    have h1 : ¬(pyLower p = "anthropic") := fun h => hnot (by simp [h])
    have h2 : ¬(pyLower p = "openai") := fun h => hnot (by simp [h])
    have h3 : ¬(pyLower p = "ollama") := fun h => hnot (by simp [h])
    have h4 : ¬(pyLower p = "bedrock") := fun h => hnot (by simp [h])
    exact ⟨_, by rw [Providers.get_ai_client, if_neg h1, if_neg h2, if_neg h3, if_neg h4]⟩

/-- Witness for C6 amended: a mixed-case provider with no model gets
the default, a nonempty passed model is used verbatim, an unknown
provider errors. -/
theorem get_ai_client_spec_witness :
    Providers.get_ai_client "Anthropic" none
        = .ok ⟨.anthropic, "claude-sonnet-4-5-20250929"⟩
    ∧ Providers.get_ai_client "openai" (some "gpt-4o") = .ok ⟨.openai, "gpt-4o"⟩
    ∧ ∃ msg, Providers.get_ai_client "gemini" none = .error msg :=
  ⟨(((get_ai_client_spec "Anthropic" none).1 .anthropic "claude-sonnet-4-5-20250929"
      (by decide)).1 (Or.inl rfl)),
   (((get_ai_client_spec "openai" (some "gpt-4o")).1 .openai "gpt-4"
      (by decide)).2 "gpt-4o" (by decide) rfl),
   ((get_ai_client_spec "gemini" none).2 (by decide))⟩

/-- C8: on an upload larger than 25 MB the transcribe handler stops
before the cache lookup, the external transcription call, the cache
write and the storage write (all effect counters are zero) — but the
HTTPException(413) it raises is swallowed by the except Exception of
the file-reading try block and re-raised as a 400, so the response
status is 400, not the 413 the claim states. -/
theorem transcribe_oversize (n : Nat) (cached : Option String) (prov : String)
    (out : Except Unit String) (localAvail storageAvail : Bool)
    (hn : 25 * 1024 * 1024 < n) :
    VoiceProc.transcribe_audio true n cached prov out localAvail storageAvail
      = ⟨.httpError 400, VoiceProc.noEffects⟩ := by
  unfold VoiceProc.transcribe_audio
  rw [if_neg (by decide), if_pos hn]

/-- Witness for C8: one byte over the limit yields status 400 with no
side effect, whatever the cache, provider and storage would have done. -/
theorem transcribe_oversize_witness :
    VoiceProc.transcribe_audio true 26214401 (some "cached") "openai" (.ok "hello")
        true true = ⟨.httpError 400, VoiceProc.noEffects⟩ :=
  transcribe_oversize 26214401 (some "cached") "openai" (.ok "hello") true true
    (by norm_num)

/-- C9: get_max_tokens always lands in [1000, 8192]: a fetched value
that parses as an integer is clamped with max 1000 (min 8192 value),
and a missing row, an empty value, a database error or an unparsable
value all yield the default 4096. -/
theorem get_max_tokens_spec (db : Except Unit (Option String)) :
    (1000 ≤ DBConfig.get_max_tokens db ∧ DBConfig.get_max_tokens db ≤ 8192)
    ∧ (∀ v n, db = .ok (some v) → v ≠ "" → DBConfig.pyInt v = some n →
        DBConfig.get_max_tokens db = max 1000 (min 8192 n))
    ∧ ((db = .error () ∨ db = .ok none ∨ db = .ok (some "")
        ∨ ∃ v, db = .ok (some v) ∧ v ≠ "" ∧ DBConfig.pyInt v = none) →
        DBConfig.get_max_tokens db = 4096) := by
  refine ⟨?_, ?_, ?_⟩
  · rcases db with e | o
    · simp [DBConfig.get_max_tokens]
    rcases o with _ | v
    · simp [DBConfig.get_max_tokens]
    by_cases hv : v = ""
    · simp [DBConfig.get_max_tokens, hv]
    cases hp : DBConfig.pyInt v with
    | none => simp [DBConfig.get_max_tokens, hv, hp]
    | some n =>
      simp only [DBConfig.get_max_tokens, hv, hp, if_neg hv]
      exact ⟨le_max_left _ _, max_le (by norm_num) (min_le_left _ _)⟩
  · intro v n hdb hv hp
    subst hdb
    simp [DBConfig.get_max_tokens, hv, hp]
  · rintro (rfl | rfl | rfl | ⟨v, rfl, hv, hp⟩) <;>
      simp [DBConfig.get_max_tokens, *]

/-- Witness for C9: 20000 is clamped to the top of the range, a
non-numeric value falls back to 4096 and stays in range. -/
theorem get_max_tokens_spec_witness :
    DBConfig.get_max_tokens (.ok (some "20000")) = max 1000 (min 8192 20000)
    ∧ DBConfig.get_max_tokens (.ok (some "banana")) = 4096
    ∧ 1000 ≤ DBConfig.get_max_tokens (.ok (some "banana")) :=
  ⟨(get_max_tokens_spec (.ok (some "20000"))).2.1 "20000" 20000 rfl (by decide) (by decide),
   (get_max_tokens_spec (.ok (some "banana"))).2.2
     (Or.inr (Or.inr (Or.inr ⟨"banana", rfl, by decide, by decide⟩))),
   (get_max_tokens_spec (.ok (some "banana"))).1.1⟩

/-- C10: the set/get round trip of ConfigManager fails on the code:
set runs UPDATE config SET config_value = ... WHERE config_key = ...
while get reads SELECT value FROM config WHERE key = ..., two different
columns.  On a table whose row holds key = config_key = a with both
value columns old, a successful set of a to new updates only the
config_value column, and a following get with force_db reads the
untouched value column and returns old, not new. -/
theorem config_set_get_mismatch :
    ConfigMgr.set ⟨[⟨"a", "old", "a", "old"⟩], [], true, true⟩ "a" "new"
      = .ok ⟨[⟨"a", "old", "a", "new"⟩], [], true, true⟩
    ∧ (ConfigMgr.getDb ⟨[⟨"a", "old", "a", "new"⟩], [], true, true⟩ "a" "DEFAULT").1 = "old"
    ∧ ("old" : String) ≠ "new" :=
  ⟨rfl, rfl, by decide⟩

end Plaud
